import Mathlib

/-!
The HTTP client configuration layer of lighter-go.

A shallow embedding of `client/http_client.go` and `client/http/client.go`.

* Go pointers to freshly allocated structs are embedded as values; a write
  through the pointer returned by `getOrCreateTransport` is a write-back into
  the owning `HTTPClient`.
* A Go panic is `Except.error`; a normal return is `Except.ok`.
* A Go `(value, error)` result of the program is a pair of options.
* The Go standard library calls whose result depends on the input text or on
  the process environment (`url.Parse`, `net.ResolveTCPAddr`,
  `http.ProxyFromEnvironment`, `textproto.CanonicalMIMEHeaderKey`) are fields
  of a `Platform` record; a concrete `goPlatform` is given for evaluation.
-/

set_option autoImplicit false

namespace LighterGo

/-! ## Standard-library data used by the program -/

/-- Go `time.Duration`: a number of nanoseconds. -/
abbrev Duration := Int

/-- Go `time.Second`. -/
def Second : Duration := 1000000000

/-- The fields of Go `url.URL` that the evaluation platform fills in. -/
structure URL where
  Scheme : String := ""
  Opaque : String := ""
  Host : String := ""
  Path : String := ""
  ForceQuery : Bool := false
  RawQuery : String := ""
deriving DecidableEq, Repr

/-- Go `net.TCPAddr`. -/
structure TCPAddr where
  IP : List Nat := []
  Port : Nat := 0
  Zone : String := ""
deriving DecidableEq, Repr

/-- Go `net.Dialer`, restricted to the fields the program sets. -/
structure Dialer where
  Timeout : Duration := 0
  KeepAlive : Duration := 0
  LocalAddr : Option TCPAddr := none
deriving DecidableEq, Repr

/-- Go `tls.Config`, restricted to the field the program sets. -/
structure TLSConfig where
  InsecureSkipVerify : Bool := false
deriving DecidableEq, Repr

/-- An outgoing request as seen by a proxy-resolution function. -/
structure Request where
  Method : String := "GET"
  Host : String := ""
  Path : String := ""
deriving DecidableEq, Repr

/-- Go `func(*http.Request) (*url.URL, error)`. -/
abbrev ProxyFunc := Request → Option URL × Option String

/-- Go `http.ProxyURL`: the function that returns the fixed URL and no error. -/
def ProxyURL (fixedURL : URL) : ProxyFunc := fun _ => (some fixedURL, none)

/-- Go `http.Transport`, restricted to the fields the program sets. The field
`DialContext` holds the dialer whose `DialContext` method value is installed. -/
structure Transport where
  Proxy : Option ProxyFunc := none
  DialContext : Option Dialer := none
  MaxConnsPerHost : Int := 0
  MaxIdleConnsPerHost : Int := 0
  IdleConnTimeout : Duration := 0
  TLSClientConfig : Option TLSConfig := none

/-- Go `http.RoundTripper` interface values: the nil interface, a non-nil
`*http.Transport`, or some other implementation. -/
inductive RoundTripper where
  | nil
  | transport (t : Transport)
  | other (id : Nat)

/-- The type assertion `rt.(*http.Transport)` with its `ok` flag. -/
def RoundTripper.asTransport : RoundTripper → Option Transport × Bool
  | .transport t => (some t, true)
  | .nil => (none, false)
  | .other _ => (none, false)

/-- Go `http.Client`, restricted to the fields the program sets. -/
structure NetClient where
  Transport : RoundTripper := RoundTripper.nil
  Timeout : Duration := 0

/-- Go `http.Header`: a map from header key to the list of its values, kept as
an association list with pairwise distinct keys. -/
abbrev Header := List (String × List String)

/-- Map index `h[k]`. -/
def Header.lookup : Header → String → Option (List String)
  | [], _ => none
  | (k, v) :: rest, key => if k = key then some v else Header.lookup rest key

/-- Map assignment `h[k] = v`. -/
def Header.store : Header → String → List String → Header
  | [], key, v => [(key, v)]
  | (k, w) :: rest, key, v =>
    if k = key then (k, v) :: rest else (k, w) :: Header.store rest key v

/-- The services of the Go standard library that the program calls and whose
result is fixed by the input text or by the process environment. -/
structure Platform where
  /-- Go `url.Parse`. -/
  urlParse : String → Except String URL
  /-- Go `net.ResolveTCPAddr`. -/
  resolveTCPAddr : String → String → Except String TCPAddr
  /-- Go `http.ProxyFromEnvironment`. -/
  proxyFromEnvironment : ProxyFunc
  /-- Go `textproto.CanonicalMIMEHeaderKey`. -/
  canonicalMIMEHeaderKey : String → String

/-- Go `http.Header.Set`: the key is canonicalised and its value list is
replaced by the single given value. -/
def Header.Set (P : Platform) (h : Header) (key value : String) : Header :=
  Header.store h (P.canonicalMIMEHeaderKey key) [value]

/-- Go `http.Header.Get`: the first value stored under the canonicalised key,
or the empty string. -/
def Header.Get (P : Platform) (h : Header) (key : String) : String :=
  match Header.lookup h (P.canonicalMIMEHeaderKey key) with
  | some (v :: _) => v
  | _ => ""

/-- The message of the runtime panic raised by a write through a nil pointer. -/
def nilDereference : String :=
  "runtime error: invalid memory address or nil pointer dereference"

/-! ## Package `client` (`client/http_client.go`) -/

namespace client

/-- Package-level `dialer`. -/
def dialer : Dialer :=
  { Timeout := 10 * Second, KeepAlive := 60 * Second }

/-- Package-level `transport`. -/
def transport : Transport :=
  { DialContext := some dialer
    MaxConnsPerHost := 1000
    MaxIdleConnsPerHost := 100
    IdleConnTimeout := 10 * Second
    TLSClientConfig := some { InsecureSkipVerify := true } }

/-- Package-level `httpClient`. -/
def httpClient : NetClient :=
  { Timeout := Second * 30, Transport := RoundTripper.transport transport }

/-- The struct `HTTPClient`. The field `defaultHeaders` is unexported and
`NewHTTPClient` initialises it with `make`, so it is always a non-nil map. -/
structure HTTPClient where
  Client : Option NetClient := none
  endpoint : String := ""
  defaultHeaders : Header := []
  channelName : String := ""
  fatFingerProtection : Bool := false

/-- The type `HTTPClientOption`, `func(*HTTPClient)`: the configuration after
the call, or the panic the call raised. -/
abbrev HTTPClientOption := HTTPClient → Except String HTTPClient

/-- The method `getOrCreateTransport`: the configuration after the call and the
returned pair (transport pointer contents, assertion flag). -/
def getOrCreateTransport (c : HTTPClient) : HTTPClient × (Option Transport × Bool) :=
  match c.Client with
  | none =>
    let created : NetClient := { Transport := RoundTripper.transport {} }
    ({ c with Client := some created }, created.Transport.asTransport)
  | some cl => (c, cl.Transport.asTransport)

/-- A write through the pointer returned by `getOrCreateTransport`: the
pointee lives in `c.Client.Transport`. -/
def storeTransport (c : HTTPClient) (t : Transport) : HTTPClient :=
  match c.Client with
  | some cl => { c with Client := some { cl with Transport := RoundTripper.transport t } }
  | none => c

/-- The option constructor `WithProxy`. -/
def WithProxy (P : Platform) (proxyURL : String) : HTTPClientOption := fun c =>
  if proxyURL = "" then Except.ok c
  else
    match P.urlParse proxyURL with
    | Except.error err => Except.error ("无效的代理URL: " ++ err)
    | Except.ok p =>
      match getOrCreateTransport c with
      | (c1, (some NewTransport, _)) =>
        Except.ok (storeTransport c1 { NewTransport with Proxy := some (ProxyURL p) })
      | (_, (none, _)) => Except.error nilDereference

/-- The option constructor `WithCustomHeaders`; the list is the map in the
order the `range` loop visits it. -/
def WithCustomHeaders (P : Platform) (headers : List (String × String)) :
    HTTPClientOption := fun c =>
  Except.ok
    { c with defaultHeaders :=
        headers.foldl (fun h kv => Header.Set P h kv.1 kv.2) c.defaultHeaders }

/-- The option constructor `WithLocalAddr`. -/
def WithLocalAddr (P : Platform) (localIP : String) : HTTPClientOption := fun c =>
  if localIP = "" then Except.ok c
  else
    match P.resolveTCPAddr "tcp" (localIP ++ ":0") with
    | Except.error err => Except.error ("无效的本地IP地址: " ++ err)
    | Except.ok addr =>
      let newDialer : Dialer :=
        { Timeout := 10 * Second, KeepAlive := 60 * Second, LocalAddr := some addr }
      match getOrCreateTransport c with
      | (c1, (some newTransport, _)) =>
        Except.ok (storeTransport c1 { newTransport with DialContext := some newDialer })
      | (_, (none, _)) => Except.error nilDereference

/-- The method `SetFatFingerProtection`. -/
def SetFatFingerProtection (c : HTTPClient) (enabled : Bool) : HTTPClient :=
  { c with fatFingerProtection := enabled }

/-- The loop `for _, option := range options { option(c) }`. -/
def applyOptions : List HTTPClientOption → HTTPClient → Except String HTTPClient
  | [], c => Except.ok c
  | option :: rest, c =>
    match option c with
    | Except.error msg => Except.error msg
    | Except.ok c1 => applyOptions rest c1

/-- The configuration `NewHTTPClient` starts from. -/
def initialClient (baseUrl : String) : HTTPClient :=
  { endpoint := baseUrl
    defaultHeaders := []
    channelName := ""
    fatFingerProtection := true }

/-- The client `NewHTTPClient` installs when the options left `Client` nil. -/
def defaultNetClient (P : Platform) : NetClient :=
  { Timeout := Second * 30
    Transport := RoundTripper.transport
      { Proxy := some P.proxyFromEnvironment
        DialContext := some { Timeout := 10 * Second, KeepAlive := 60 * Second }
        MaxConnsPerHost := 1000
        MaxIdleConnsPerHost := 100
        IdleConnTimeout := 10 * Second
        TLSClientConfig := some { InsecureSkipVerify := true } } }

/-- The function `NewHTTPClient`: a panic, or the returned pair
(client pointer, error). -/
def NewHTTPClient (P : Platform) (baseUrl : String) (options : List HTTPClientOption) :
    Except String (Option HTTPClient × Option String) :=
  if baseUrl = "" then Except.ok (none, some "baseUrl不能为空")
  else
    match applyOptions options (initialClient baseUrl) with
    | Except.error msg => Except.error msg
    | Except.ok c =>
      match c.Client with
      | none => Except.ok (some { c with Client := some (defaultNetClient P) }, none)
      | some _ => Except.ok (some c, none)

end client

/-! ## Package `http` (`client/http/client.go`) -/

namespace http

/-- Package-level `dialer`. -/
def dialer : Dialer :=
  { Timeout := 10 * Second, KeepAlive := 60 * Second }

/-- Package-level `transport`. -/
def transport : Transport :=
  { DialContext := some dialer
    MaxConnsPerHost := 1000
    MaxIdleConnsPerHost := 100
    IdleConnTimeout := 10 * Second
    TLSClientConfig := some { InsecureSkipVerify := false } }

/-- Package-level `httpClient`. -/
def httpClient : NetClient :=
  { Timeout := Second * 30, Transport := RoundTripper.transport transport }

/-- The struct `client`. -/
structure client where
  endpoint : String := ""
  proxyURL : Option URL := none
  localAddr : Option TCPAddr := none
  customHeaders : Option (List (String × String)) := none
  httpClient : Option NetClient := none

/-- The function `NewClient`; the result is the interface value, `none` for
the nil interface. -/
def NewClient (baseUrl : String) : Option client :=
  if baseUrl = "" then none
  else some { endpoint := baseUrl }

end http

/-! ## A concrete platform for evaluation

The general theorems below hold for every `Platform`. To run the model on
concrete inputs, `goPlatform` follows the Go standard library on the part of
each call that the inputs used below exercise; what is left out is listed at
each definition.
-/

namespace Go

/-- Go `textproto.validHeaderFieldByte`: the RFC 7230 token characters. -/
def validHeaderFieldByte (c : Char) : Bool :=
  c.isAlphanum ||
    [33, 35, 36, 37, 38, 39, 42, 43, 45, 46, 94, 95, 96, 124, 126].contains c.toNat

/-- The canonicalising loop of Go `textproto.canonicalMIMEHeaderKey`: upper
case at the start and after each dash, lower case elsewhere. -/
def canonicalLoop : Bool → List Char → List Char
  | _, [] => []
  | upper, c :: cs =>
    let c1 :=
      if upper && c.isLower then c.toUpper
      else if !upper && c.isUpper then c.toLower
      else c
    c1 :: canonicalLoop (c1 == '-') cs

/-- Go `textproto.canonicalMIMEHeaderKey`: a key holding a byte that is not a
token character is returned unchanged (a space included). The final lookup in
the table of common headers returns an equal string and is left out. -/
def canonicalMIMEHeaderKey (a : String) : String :=
  if a.toList.all validHeaderFieldByte then String.mk (canonicalLoop true a.toList)
  else a

/-- The quick check of Go `textproto.CanonicalMIMEHeaderKey`. -/
def quickCheck (s : String) : Bool → List Char → String
  | _, [] => s
  | upper, c :: cs =>
    if !validHeaderFieldByte c then s
    else if upper && c.isLower then canonicalMIMEHeaderKey s
    else if !upper && c.isUpper then canonicalMIMEHeaderKey s
    else quickCheck s (c == '-') cs

/-- Go `textproto.CanonicalMIMEHeaderKey`. -/
def CanonicalMIMEHeaderKey (s : String) : String :=
  quickCheck s true s.toList

/-- Go `url.stringContainsCTLByte`. -/
def stringContainsCTLByte (s : List Char) : Bool :=
  s.any (fun c => c.toNat < 32 || c.toNat = 127)

/-- The loop of Go `url.getScheme`: the scheme and the rest, or the error
raised by a leading colon. -/
def getSchemeLoop (rawURL : List Char) : Nat → List Char →
    Except String (List Char × List Char)
  | _, [] => Except.ok ([], rawURL)
  | i, c :: cs =>
    if c.isAlpha then getSchemeLoop rawURL (i + 1) cs
    else if c.isDigit || c == '+' || c == '-' || c == '.' then
      if i = 0 then Except.ok ([], rawURL) else getSchemeLoop rawURL (i + 1) cs
    else if c == ':' then
      if i = 0 then Except.error "missing protocol scheme"
      else Except.ok (rawURL.take i, cs)
    else Except.ok ([], rawURL)

/-- Go `url.getScheme`. -/
def getScheme (rawURL : List Char) : Except String (List Char × List Char) :=
  getSchemeLoop rawURL 0 rawURL

/-- Go `strings.Cut` on a single-character separator. -/
def cut (s : List Char) (sep : Char) : List Char × List Char :=
  (s.takeWhile (fun c => c != sep), (s.dropWhile (fun c => c != sep)).drop 1)

/-- The unexported Go `url.parse` with `viaRequest = false`. Left out: the
validation of host and port, the splitting off of user information and all
percent-decoding (the authority is stored in `Host` and the path in `Path`
as written). -/
def parse (rawURL : List Char) : Except String URL :=
  if stringContainsCTLByte rawURL then
    Except.error "net/url: invalid control character in URL"
  else if rawURL = ['*'] then Except.ok { Path := "*" }
  else
    match getScheme rawURL with
    | Except.error err => Except.error err
    | Except.ok (scheme, rest0) =>
      let Scheme := String.mk (scheme.map Char.toLower)
      let force := rest0.getLast? = some '?' && rest0.count '?' = 1
      let rest := if force then rest0.dropLast else (cut rest0 '?').1
      let RawQuery := if force then "" else String.mk (cut rest0 '?').2
      if rest.head? ≠ some '/' ∧ Scheme ≠ "" then
        Except.ok
          { Scheme := Scheme, Opaque := String.mk rest, ForceQuery := force,
            RawQuery := RawQuery }
      else if rest.head? ≠ some '/' ∧ (cut rest '/').1.contains ':' then
        Except.error "first path segment in URL cannot contain colon"
      else if (Scheme ≠ "" ∨ rest.take 3 ≠ ['/', '/', '/']) ∧ rest.take 2 = ['/', '/'] then
        let authority := (rest.drop 2).takeWhile (fun c => c != '/')
        let path := (rest.drop 2).dropWhile (fun c => c != '/')
        Except.ok
          { Scheme := Scheme, Host := String.mk authority, Path := String.mk path,
            ForceQuery := force, RawQuery := RawQuery }
      else
        Except.ok
          { Scheme := Scheme, Path := String.mk rest, ForceQuery := force,
            RawQuery := RawQuery }

/-- Go `url.Parse`: the fragment is cut off (and not stored), and an error is
wrapped as `parse "<url>": <error>`. The quoting leaves the text as written. -/
def urlParse (rawURL : String) : Except String URL :=
  let u := (cut rawURL.toList '#').1
  match parse u with
  | Except.error err =>
    Except.error ("parse \"" ++ String.mk u ++ "\": " ++ err)
  | Except.ok url => Except.ok url

/-- A decimal number without sign, `none` when a character is not a digit or
the text is empty. -/
def parseDecimal (s : List Char) : Option Nat :=
  if s = [] ∨ ¬ s.all Char.isDigit = true then none
  else some (s.foldl (fun n c => 10 * n + (c.toNat - 48)) 0)

/-- One field of a dotted-decimal IPv4 address: at most three digits, no
leading zero, at most 255. -/
def parseOctet (s : List Char) : Option Nat :=
  match parseDecimal s with
  | some n =>
    if s.length ≤ 3 ∧ n ≤ 255 ∧ (s.length = 1 ∨ s.head? ≠ some '0') then some n else none
  | none => none

/-- The text split at each occurrence of the separator. -/
def splitOn (sep : Char) : List Char → List (List Char)
  | [] => [[]]
  | c :: cs =>
    if c = sep then [] :: splitOn sep cs
    else
      match splitOn sep cs with
      | [] => [[c]]
      | first :: others => (c :: first) :: others

/-- The four fields of a dotted-decimal IPv4 literal. -/
def parseIPv4Fields (s : List Char) : Option (List Nat) :=
  match (splitOn '.' s).map parseOctet with
  | [some a, some b, some c, some d] => some [a, b, c, d]
  | _ => none

/-- A dotted-decimal IPv4 literal, as the 16-byte form (`IP.To16`) in which
the resolver returns it. -/
def parseIPv4 (s : List Char) : Option (List Nat) :=
  match parseIPv4Fields s with
  | some bytes => some ([0, 0, 0, 0, 0, 0, 0, 0, 0, 0, 255, 255] ++ bytes)
  | none => none

/-- The value of a hexadecimal digit. -/
def hexValue (c : Char) : Option Nat :=
  if c.isDigit then some (c.toNat - 48)
  else if 97 ≤ c.toNat ∧ c.toNat ≤ 102 then some (c.toNat - 87)
  else if 65 ≤ c.toNat ∧ c.toNat ≤ 70 then some (c.toNat - 55)
  else none

/-- One field of an IPv6 literal, one to four hexadecimal digits, as its two
bytes. -/
def parseHexField (s : List Char) : Option (List Nat) :=
  if s = [] ∨ 4 < s.length ∨ ¬ s.all (fun c => (hexValue c).isSome) = true then none
  else
    let v := s.foldl (fun n c => 16 * n + (hexValue c).getD 0) 0
    some [v / 256, v % 256]

/-- A run of colon-separated hexadecimal fields. -/
def parseHexFields : List (List Char) → Option (List Nat)
  | [] => some []
  | field :: rest =>
    match parseHexField field, parseHexFields rest with
    | some bytes, some more => some (bytes ++ more)
    | _, _ => none

/-- A run of colon-separated hexadecimal fields whose last field may be a
dotted-decimal IPv4 literal. -/
def parseFields : List (List Char) → Option (List Nat)
  | [] => some []
  | [last] =>
    match parseHexField last with
    | some bytes => some bytes
    | none => parseIPv4Fields last
  | field :: rest =>
    match parseHexField field, parseFields rest with
    | some bytes, some more => some (bytes ++ more)
    | _, _ => none

/-- The text before and after the first double colon. -/
def splitEllipsis : List Char → Option (List Char × List Char)
  | [] => none
  | c :: rest =>
    if c = ':' ∧ rest.head? = some ':' then some ([], rest.drop 1)
    else
      match splitEllipsis rest with
      | some (before, after) => some (c :: before, after)
      | none => none

/-- An IPv6 literal with an optional zone, as Go `netip.ParseAddr` reads it:
eight fields, or fewer with one double colon standing for at least one field
of zeros; the last two fields may be written as an IPv4 literal. -/
def parseIPv6 (input : List Char) : Option (List Nat × List Char) :=
  let s := input.takeWhile (fun c => c != '%')
  let zone := (input.dropWhile (fun c => c != '%')).drop 1
  if '%' ∈ input ∧ zone = [] then none
  else
    match splitEllipsis s with
    | some (before, after) =>
      match (if before = [] then some [] else parseHexFields (splitOn ':' before)),
          (if after = [] then some [] else parseFields (splitOn ':' after)) with
      | some front, some back =>
        if front.length + back.length ≤ 14 then
          some (front ++ List.replicate (16 - (front.length + back.length)) 0 ++ back, zone)
        else none
      | _, _ => none
    | none =>
      match parseFields (splitOn ':' s) with
      | some bytes => if bytes.length = 16 then some (bytes, zone) else none
      | none => none

/-- Go `bytealg.LastIndexByteString`: the index of the last occurrence. -/
def lastIndexByte (c : Char) : List Char → Option Nat
  | [] => none
  | x :: xs =>
    match lastIndexByte c xs with
    | some i => some (i + 1)
    | none => if x = c then some 0 else none

/-- Go `bytealg.IndexByteString`: the index of the first occurrence. -/
def indexByte (c : Char) : List Char → Option Nat
  | [] => none
  | x :: xs => if x = c then some 0 else (indexByte c xs).map (fun i => i + 1)

/-- The text of a Go `net.AddrError`. -/
def addrError (addr : List Char) (why : String) : String :=
  "address " ++ String.mk addr ++ ": " ++ why

/-- Go `net.SplitHostPort`: the port starts after the last colon; a host that
holds a colon must be written in brackets. -/
def splitHostPort (hostport : List Char) : Except String (List Char × List Char) :=
  match lastIndexByte ':' hostport with
  | none => Except.error (addrError hostport "missing port in address")
  | some i =>
    if hostport.head? = some '[' then
      match indexByte ']' hostport with
      | none => Except.error (addrError hostport "missing ] in address")
      | some close =>
        if close + 1 = hostport.length then
          Except.error (addrError hostport "missing port in address")
        else if close + 1 = i then
          if '[' ∈ hostport.drop 1 then
            Except.error (addrError hostport "unexpected [ in address")
          else if ']' ∈ hostport.drop (close + 1) then
            Except.error (addrError hostport "unexpected ] in address")
          else Except.ok ((hostport.take close).drop 1, hostport.drop (i + 1))
        else if hostport.get? (close + 1) = some ':' then
          Except.error (addrError hostport "too many colons in address")
        else Except.error (addrError hostport "missing port in address")
    else if ':' ∈ hostport.take i then
      Except.error (addrError hostport "too many colons in address")
    else if '[' ∈ hostport then
      Except.error (addrError hostport "unexpected [ in address")
    else if ']' ∈ hostport then
      Except.error (addrError hostport "unexpected ] in address")
    else Except.ok (hostport.take i, hostport.drop (i + 1))

/-- Go `net.ResolveTCPAddr` for the network `tcp`: the address is split by
`net.SplitHostPort`, the port is read as a number, and an empty host or an
IP literal is returned without a lookup. Left out: signed ports, service
names and host names, for which the real call consults the resolver; they are
reported as errors here. The messages about brackets are written without the
quotes of the original. -/
def resolveTCPAddr (network address : String) : Except String TCPAddr :=
  if network ≠ "tcp" then Except.error ("unknown network " ++ network)
  else if address = "" then Except.ok {}
  else
    match splitHostPort address.toList with
    | Except.error err => Except.error err
    | Except.ok (host, port) =>
      match (if port = [] then some 0 else parseDecimal port) with
      | none => Except.error ("lookup tcp/" ++ String.mk port ++ ": unknown port")
      | some n =>
        if 65535 < n then Except.error (addrError port "invalid port")
        else if host = [] then Except.ok { Port := n }
        else
          match parseIPv4 host with
          | some ip => Except.ok { IP := ip, Port := n }
          | none =>
            match parseIPv6 host with
            | some (ip, zone) => Except.ok { IP := ip, Port := n, Zone := String.mk zone }
            | none => Except.error ("lookup " ++ String.mk host ++ ": no such host")

/-- Go `http.ProxyFromEnvironment` in a process whose environment sets none
of `HTTP_PROXY`, `HTTPS_PROXY`, `NO_PROXY`: no proxy and no error. -/
def proxyFromEnvironment : ProxyFunc := fun _ => (none, none)

end Go

/-- The platform used to evaluate the model on concrete inputs. -/
def goPlatform : Platform :=
  { urlParse := Go.urlParse
    resolveTCPAddr := Go.resolveTCPAddr
    proxyFromEnvironment := Go.proxyFromEnvironment
    canonicalMIMEHeaderKey := Go.CanonicalMIMEHeaderKey }

/-- An option that returns normally and leaves the field `Client` as it found
it, whatever the configuration. -/
def client.leavesClientUntouched (o : client.HTTPClientOption) : Prop :=
  ∀ c, ∃ c1, o c = Except.ok c1 ∧ c1.Client = c.Client

/-! ## Basic facts about the embedding -/

theorem Header.lookup_store_same (h : Header) (key : String) (v : List String) :
    Header.lookup (Header.store h key v) key = some v := by
  induction h with
  | nil => simp [Header.store, Header.lookup]
  | cons kv rest ih =>
    obtain ⟨k, w⟩ := kv
    by_cases hk : k = key
    · simp [Header.store, Header.lookup, hk]
    · simp [Header.store, Header.lookup, hk, ih]

theorem Header.lookup_store_other (h : Header) (key other : String) (v : List String)
    (hne : key ≠ other) :
    Header.lookup (Header.store h key v) other = Header.lookup h other := by
  induction h with
  | nil => simp [Header.store, Header.lookup, hne]
  | cons kv rest ih =>
    obtain ⟨k, w⟩ := kv
    by_cases hk : k = key
    · subst hk
      simp [Header.store, Header.lookup, hne]
    · by_cases hko : k = other
      · subst hko
        simp [Header.store, Header.lookup, hk]
      · simp [Header.store, Header.lookup, hk, hko, ih]

/-- Keys that no entry of the input canonicalises to keep their value list. -/
theorem Header.lookup_foldl_Set_other (P : Platform) (headers : List (String × String))
    (h : Header) (key : String)
    (habsent : ∀ kv ∈ headers, P.canonicalMIMEHeaderKey kv.1 ≠ key) :
    Header.lookup (headers.foldl (fun h kv => Header.Set P h kv.1 kv.2) h) key =
      Header.lookup h key := by
  induction headers generalizing h with
  | nil => rfl
  | cons x rest ih =>
    have hx := habsent x (List.mem_cons_self x rest)
    have hrest : ∀ kv ∈ rest, P.canonicalMIMEHeaderKey kv.1 ≠ key :=
      fun kv hkv => habsent kv (List.mem_cons_of_mem x hkv)
    rw [List.foldl_cons, ih _ hrest]
    exact Header.lookup_store_other h _ key [x.2] hx

/-- When the canonical keys of the input are pairwise distinct, each entry's
canonical key ends up holding exactly that entry's value. -/
theorem Header.lookup_foldl_Set_mem (P : Platform) (headers : List (String × String))
    (h : Header)
    (hdistinct : (headers.map (fun kv => P.canonicalMIMEHeaderKey kv.1)).Nodup) :
    ∀ kv ∈ headers,
      Header.lookup (headers.foldl (fun h kv => Header.Set P h kv.1 kv.2) h)
        (P.canonicalMIMEHeaderKey kv.1) = some [kv.2] := by
  induction headers generalizing h with
  | nil => intro kv hkv; cases hkv
  | cons x rest ih =>
    rw [List.map_cons, List.nodup_cons] at hdistinct
    obtain ⟨hx, hrest⟩ := hdistinct
    intro kv hkv
    rw [List.foldl_cons]
    rcases List.mem_cons.mp hkv with rfl | hmem
    · rw [Header.lookup_foldl_Set_other P rest _ _ ?_]
      · exact Header.lookup_store_same h _ _
      · intro kv1 hkv1 heq
        exact hx (List.mem_map.mpr ⟨kv1, hkv1, heq⟩)
    · exact ih _ hrest kv hmem

/-! ### The resolver of the evaluation platform -/

namespace Go

theorem lastIndexByte_append_colon (l : List Char) :
    lastIndexByte ':' (l ++ [':', '0']) = some l.length := by
  induction l with
  | nil => rfl
  | cons x xs ih => simp [lastIndexByte, ih]

/-- A host that holds a colon and is not bracketed cannot be followed by
`:0`: the split reports too many colons. -/
theorem splitHostPort_bare_colon (l : List Char) (hcolon : ':' ∈ l)
    (hhead : l.head? ≠ some '[') :
    splitHostPort (l ++ [':', '0']) =
      Except.error (addrError (l ++ [':', '0']) "too many colons in address") := by
  have hne : l ≠ [] := List.ne_nil_of_mem hcolon
  have hh : (l ++ [':', '0']).head? = l.head? := List.head?_append_of_ne_nil l hne
  simp only [splitHostPort, lastIndexByte_append_colon, hh, if_neg hhead,
    List.take_left, if_pos hcolon]

theorem mem_splitOn (sep : Char) (l : List Char) (c : Char) (hc : c ∈ l) :
    c = sep ∨ ∃ piece ∈ splitOn sep l, c ∈ piece := by
  induction l with
  | nil => cases hc
  | cons x xs ih =>
    by_cases hx : x = sep
    · rcases List.mem_cons.mp hc with rfl | hmem
      · exact Or.inl hx
      · rcases ih hmem with h | ⟨piece, hp, hcp⟩
        · exact Or.inl h
        · refine Or.inr ⟨piece, ?_, hcp⟩
          simp [splitOn, hx, hp]
    · rcases List.mem_cons.mp hc with rfl | hmem
      · refine Or.inr ?_
        cases hs : splitOn sep xs with
        | nil => exact ⟨[c], by simp [splitOn, hx, hs], by simp⟩
        | cons first others =>
          exact ⟨c :: first, by simp [splitOn, hx, hs], by simp⟩
      · rcases ih hmem with h | ⟨piece, hp, hcp⟩
        · exact Or.inl h
        · refine Or.inr ?_
          cases hs : splitOn sep xs with
          | nil => rw [hs] at hp; cases hp
          | cons first others =>
            rw [hs] at hp
            rcases List.mem_cons.mp hp with rfl | hrest
            · exact ⟨x :: piece, by simp [splitOn, hx, hs], by simp [hcp]⟩
            · exact ⟨piece, by simp [splitOn, hx, hs, hrest], hcp⟩

theorem parseDecimal_digits (s : List Char) (n : Nat) (h : parseDecimal s = some n) :
    ∀ c ∈ s, c.isDigit = true := by
  unfold parseDecimal at h
  split at h
  · cases h
  · rename_i hcond
    simp only [not_or, not_not] at hcond
    exact fun c hc => List.all_eq_true.mp hcond.2 c hc

theorem parseOctet_digits (s : List Char) (n : Nat) (h : parseOctet s = some n) :
    ∀ c ∈ s, c.isDigit = true := by
  unfold parseOctet at h
  split at h
  · rename_i m hm
    exact parseDecimal_digits s m hm
  · cases h

theorem parseIPv4Fields_chars (l : List Char) (bytes : List Nat)
    (h : parseIPv4Fields l = some bytes) :
    l ≠ [] ∧ ∀ c ∈ l, c = '.' ∨ c.isDigit = true := by
  unfold parseIPv4Fields at h
  split at h
  · rename_i a b c d heq
    refine ⟨?_, ?_⟩
    · rintro rfl
      simp [splitOn] at heq
    · intro x hx
      rcases mem_splitOn '.' l x hx with hdot | ⟨piece, hp, hxp⟩
      · exact Or.inl hdot
      · right
        have hmem : parseOctet piece ∈ (splitOn '.' l).map parseOctet :=
          List.mem_map_of_mem parseOctet hp
        rw [heq] at hmem
        simp only [List.mem_cons, List.mem_singleton, List.not_mem_nil, or_false] at hmem
        rcases hmem with h1 | h1 | h1 | h1 <;>
          exact parseOctet_digits piece _ h1 x hxp
  · cases h

theorem parseIPv4_chars (l : List Char) (ip : List Nat) (h : parseIPv4 l = some ip) :
    l ≠ [] ∧ ∀ c ∈ l, c = '.' ∨ c.isDigit = true := by
  unfold parseIPv4 at h
  split at h
  · rename_i bytes hb
    exact parseIPv4Fields_chars l bytes hb
  · cases h

theorem digit_or_dot_plain (c : Char) (h : c = '.' ∨ c.isDigit = true) :
    c ≠ ':' ∧ c ≠ '[' ∧ c ≠ ']' := by
  refine ⟨?_, ?_, ?_⟩ <;>
  · rintro rfl
    rcases h with h | h
    · exact absurd h (by decide)
    · exact absurd h (by decide)

/-- An IPv4 literal followed by `:0` splits into the literal and the port. -/
theorem splitHostPort_ipv4 (l : List Char) (hne : l ≠ [])
    (hchars : ∀ c ∈ l, c = '.' ∨ c.isDigit = true) :
    splitHostPort (l ++ [':', '0']) = Except.ok (l, ['0']) := by
  have hh : (l ++ [':', '0']).head? = l.head? := List.head?_append_of_ne_nil l hne
  have hhead : l.head? ≠ some '[' := by
    intro hb
    have hmem : '[' ∈ l := List.mem_of_mem_head? hb
    exact (digit_or_dot_plain _ (hchars _ hmem)).2.1 rfl
  have hcolon : ':' ∉ l := fun hm => (digit_or_dot_plain _ (hchars _ hm)).1 rfl
  have hopen : '[' ∉ l ++ [':', '0'] := by
    intro hm
    rcases List.mem_append.mp hm with hm | hm
    · exact (digit_or_dot_plain _ (hchars _ hm)).2.1 rfl
    · exact absurd hm (by decide)
  have hclose : ']' ∉ l ++ [':', '0'] := by
    intro hm
    rcases List.mem_append.mp hm with hm | hm
    · exact (digit_or_dot_plain _ (hchars _ hm)).2.2 rfl
    · exact absurd hm (by decide)
  have hdrop : (l ++ [':', '0']).drop (l.length + 1) = ['0'] := by
    rw [List.drop_append]
    rfl
  simp only [splitHostPort, lastIndexByte_append_colon, hh, if_neg hhead,
    List.take_left, if_neg hcolon, if_neg hopen, if_neg hclose, hdrop]

/-- The resolver returns an IPv4 literal followed by `:0` as that address with
port 0. -/
theorem resolveTCPAddr_ipv4 (host : String) (ip : List Nat)
    (h : parseIPv4 host.toList = some ip) :
    resolveTCPAddr "tcp" (host ++ ":0") = Except.ok { IP := ip, Port := 0 } := by
  obtain ⟨hne, hchars⟩ := parseIPv4_chars host.toList ip h
  have hlist : (host ++ ":0").toList = host.toList ++ [':', '0'] := by
    simp [String.toList]
  have haddr : host ++ ":0" ≠ "" := by
    intro hempty
    have := congrArg String.toList hempty
    rw [hlist] at this
    simp at this
  have hsplit : splitHostPort (host.data ++ [':', '0']) = Except.ok (host.data, ['0']) :=
    splitHostPort_ipv4 _ hne hchars
  have hne1 : host.data ≠ [] := hne
  have h1 : parseIPv4 host.data = some ip := h
  simp [resolveTCPAddr, haddr, hlist, hsplit, parseDecimal, hne1, h1]

end Go

namespace client

theorem WithCustomHeaders_leavesClientUntouched (P : Platform)
    (headers : List (String × String)) :
    leavesClientUntouched (WithCustomHeaders P headers) := by
  intro c
  exact ⟨_, rfl, rfl⟩

theorem WithProxy_empty_leavesClientUntouched (P : Platform) :
    leavesClientUntouched (WithProxy P "") := by
  intro c
  exact ⟨c, by simp [WithProxy], rfl⟩

theorem WithLocalAddr_empty_leavesClientUntouched (P : Platform) :
    leavesClientUntouched (WithLocalAddr P "") := by
  intro c
  exact ⟨c, by simp [WithLocalAddr], rfl⟩

theorem applyOptions_untouched (options : List HTTPClientOption)
    (hopts : ∀ o ∈ options, leavesClientUntouched o) (c : HTTPClient) :
    ∃ c1, applyOptions options c = Except.ok c1 ∧ c1.Client = c.Client := by
  induction options generalizing c with
  | nil => exact ⟨c, rfl, rfl⟩
  | cons o rest ih =>
    obtain ⟨c1, h1, hc1⟩ := hopts o (List.mem_cons_self o rest) c
    obtain ⟨c2, h2, hc2⟩ :=
      ih (fun o1 ho1 => hopts o1 (List.mem_cons_of_mem o ho1)) c1
    refine ⟨c2, ?_, hc2.trans hc1⟩
    simp [applyOptions, h1, h2]

theorem NewHTTPClient_of_applyOptions (P : Platform) (baseUrl : String)
    (options : List HTTPClientOption) (c : HTTPClient) (he : baseUrl ≠ "")
    (hrun : applyOptions options (initialClient baseUrl) = Except.ok c) :
    NewHTTPClient P baseUrl options =
      match c.Client with
      | none => Except.ok (some { c with Client := some (defaultNetClient P) }, none)
      | some _ => Except.ok (some c, none) := by
  simp [NewHTTPClient, he, hrun]

/-- The option `WithLocalAddr` replaces the dial strategy wholesale: whatever
dialer, proxy function and limits the installed transport holds, after the
option its dialer is the new one (10s, 60s, bound to the resolved address)
and every other field of the transport and of the configuration is as before. -/
theorem WithLocalAddr_replaces_dialer (P : Platform) (c : HTTPClient) (cl : NetClient)
    (t : Transport) (localIP : String) (addr : TCPAddr) (hip : localIP ≠ "")
    (hr : P.resolveTCPAddr "tcp" (localIP ++ ":0") = Except.ok addr)
    (hcl : c.Client = some cl) (ht : cl.Transport = RoundTripper.transport t) :
    WithLocalAddr P localIP c =
      Except.ok
        { c with Client := some (
            { cl with Transport := RoundTripper.transport (
                { t with DialContext := some (
                    { Timeout := 10 * Second, KeepAlive := 60 * Second,
                      LocalAddr := some addr } : Dialer) } : Transport) } : NetClient) } := by
  simp [WithLocalAddr, hip, hr, getOrCreateTransport, hcl, ht, RoundTripper.asTransport,
    storeTransport]

/-- Two `WithLocalAddr` options in a row, for addresses the resolver accepts:
the second one decides the bound address, in either order, and a proxy
function installed before them is kept. -/
theorem NewHTTPClient_local_addr_order (P : Platform) (e a b : String)
    (addrA addrB : TCPAddr) (he : e ≠ "") (ha : a ≠ "") (hb : b ≠ "")
    (hra : P.resolveTCPAddr "tcp" (a ++ ":0") = Except.ok addrA)
    (hrb : P.resolveTCPAddr "tcp" (b ++ ":0") = Except.ok addrB) :
    (∃ c cl t, NewHTTPClient P e [WithLocalAddr P a, WithLocalAddr P b] =
        Except.ok (some c, none) ∧
      c.Client = some cl ∧ cl.Transport = RoundTripper.transport t ∧
      t.DialContext = some
        { Timeout := 10 * Second, KeepAlive := 60 * Second, LocalAddr := some addrB }) ∧
    (∃ c cl t, NewHTTPClient P e [WithLocalAddr P b, WithLocalAddr P a] =
        Except.ok (some c, none) ∧
      c.Client = some cl ∧ cl.Transport = RoundTripper.transport t ∧
      t.DialContext = some
        { Timeout := 10 * Second, KeepAlive := 60 * Second, LocalAddr := some addrA }) ∧
    (∀ p u, p ≠ "" → P.urlParse p = Except.ok u →
      ∃ c cl t,
        NewHTTPClient P e [WithProxy P p, WithLocalAddr P a, WithLocalAddr P b] =
          Except.ok (some c, none) ∧
        c.Client = some cl ∧ cl.Transport = RoundTripper.transport t ∧
        t.Proxy = some (ProxyURL u) ∧
        t.DialContext = some
          { Timeout := 10 * Second, KeepAlive := 60 * Second,
            LocalAddr := some addrB }) := by
  refine ⟨?_, ?_, ?_⟩
  · simp [NewHTTPClient, he, applyOptions, WithLocalAddr, ha, hb, hra, hrb,
      getOrCreateTransport, RoundTripper.asTransport, storeTransport, initialClient]
  · simp [NewHTTPClient, he, applyOptions, WithLocalAddr, ha, hb, hra, hrb,
      getOrCreateTransport, RoundTripper.asTransport, storeTransport, initialClient]
  · intro p u hp hu
    simp [NewHTTPClient, he, applyOptions, WithLocalAddr, WithProxy, hp, hu, ha, hb, hra,
      hrb, getOrCreateTransport, RoundTripper.asTransport, storeTransport, initialClient]

/-- For dotted-decimal IPv4 literals `a` and `b`, building with
`WithLocalAddr(a)` then `WithLocalAddr(b)` binds the dialer to the address
`b`, port 0, with dial timeout 10s and keep-alive 60s; swapped, to `a`; and a
proxy function installed before them is kept. -/
theorem WithLocalAddr_ipv4_last_wins (e a b : String) (ipA ipB : List Nat)
    (he : e ≠ "") (ha : Go.parseIPv4 a.toList = some ipA)
    (hb : Go.parseIPv4 b.toList = some ipB) :
    (∃ c cl t,
      NewHTTPClient goPlatform e [WithLocalAddr goPlatform a, WithLocalAddr goPlatform b] =
        Except.ok (some c, none) ∧
      c.Client = some cl ∧ cl.Transport = RoundTripper.transport t ∧
      t.DialContext = some
        { Timeout := 10 * Second, KeepAlive := 60 * Second,
          LocalAddr := some { IP := ipB, Port := 0, Zone := "" } }) ∧
    (∃ c cl t,
      NewHTTPClient goPlatform e [WithLocalAddr goPlatform b, WithLocalAddr goPlatform a] =
        Except.ok (some c, none) ∧
      c.Client = some cl ∧ cl.Transport = RoundTripper.transport t ∧
      t.DialContext = some
        { Timeout := 10 * Second, KeepAlive := 60 * Second,
          LocalAddr := some { IP := ipA, Port := 0, Zone := "" } }) ∧
    (∀ p u, p ≠ "" → goPlatform.urlParse p = Except.ok u →
      ∃ c cl t,
        NewHTTPClient goPlatform e
            [WithProxy goPlatform p, WithLocalAddr goPlatform a, WithLocalAddr goPlatform b] =
          Except.ok (some c, none) ∧
        c.Client = some cl ∧ cl.Transport = RoundTripper.transport t ∧
        t.Proxy = some (ProxyURL u) ∧
        t.DialContext = some
          { Timeout := 10 * Second, KeepAlive := 60 * Second,
            LocalAddr := some { IP := ipB, Port := 0, Zone := "" } }) := by
  have hane : a ≠ "" := by
    rintro rfl
    exact (Go.parseIPv4_chars _ ipA ha).1 rfl
  have hbne : b ≠ "" := by
    rintro rfl
    exact (Go.parseIPv4_chars _ ipB hb).1 rfl
  exact NewHTTPClient_local_addr_order goPlatform e a b _ _ he hane hbne
    (Go.resolveTCPAddr_ipv4 a ipA ha) (Go.resolveTCPAddr_ipv4 b ipB hb)

/-- A local IP text that holds a colon and is not bracketed, as every IPv6
literal is, makes the build panic: `localIP + ":0"` has too many colons. -/
theorem WithLocalAddr_bare_colon_panics (e localIP : String) (he : e ≠ "")
    (hcolon : ':' ∈ localIP.toList) (hhead : localIP.toList.head? ≠ some '[') :
    NewHTTPClient goPlatform e [WithLocalAddr goPlatform localIP] =
      Except.error
        ("无效的本地IP地址: " ++
          Go.addrError (localIP.toList ++ [':', '0']) "too many colons in address") := by
  have hne : localIP ≠ "" := by
    rintro rfl
    simp at hcolon
  have hlist : (localIP ++ ":0").toList = localIP.toList ++ [':', '0'] := by
    simp [String.toList]
  have haddr : localIP ++ ":0" ≠ "" := by
    intro hempty
    have := congrArg String.toList hempty
    rw [hlist] at this
    simp at this
  have hsplit := Go.splitHostPort_bare_colon _ hcolon hhead
  have hres : goPlatform.resolveTCPAddr "tcp" (localIP ++ ":0") =
      Except.error
        (Go.addrError (localIP.toList ++ [':', '0']) "too many colons in address") := by
    show Go.resolveTCPAddr "tcp" (localIP ++ ":0") = _
    unfold Go.resolveTCPAddr
    rw [if_neg (by simp), if_neg haddr, hlist, hsplit]
  simp [NewHTTPClient, he, applyOptions, WithLocalAddr, hne, hres]

end client

/-! ## The claims -/

open client

/-- C1: with the empty endpoint, `NewHTTPClient` returns the nil client and a
non-nil error for every list of options; the result does not depend on the
options (an option that would panic is not run), and `NewClient("")` of the
`http` package returns the nil interface. -/
theorem C1_empty_endpoint_rejected (P : Platform) (options : List HTTPClientOption) :
    NewHTTPClient P "" options = Except.ok (none, some "baseUrl不能为空") ∧
      NewHTTPClient P "" options = NewHTTPClient P "" [] ∧
      http.NewClient "" = none := by
  refine ⟨?_, ?_, ?_⟩ <;> simp [NewHTTPClient, http.NewClient]

/-- C10: for a non-empty endpoint `e`, `NewHTTPClient(e)` with no options
returns no error and a client that records `e`, whose `Client` is non-nil and
whose default-header map has no key; `NewClient(e)` of the `http` package
returns a non-nil client that records `e`. -/
theorem C10_nonempty_endpoint_recorded (P : Platform) (e : String) (he : e ≠ "") :
    (∃ c cl, NewHTTPClient P e [] = Except.ok (some c, none) ∧
      c.endpoint = e ∧ c.Client = some cl ∧ c.defaultHeaders = [] ∧
      ∀ key, Header.lookup c.defaultHeaders key = none) ∧
    (∃ k, http.NewClient e = some k ∧ k.endpoint = e) := by
  refine ⟨⟨{ initialClient e with Client := some (defaultNetClient P) },
    defaultNetClient P, ?_, rfl, rfl, rfl, fun _ => rfl⟩, ⟨{ endpoint := e }, ?_, rfl⟩⟩
  · simp [NewHTTPClient, he, applyOptions, initialClient]
  · simp [http.NewClient, he]

/-- C10 at the endpoint `https://mainnet.zklighter.elliot.ai`. -/
theorem C10_nonempty_endpoint_recorded_witness :
    (∃ c cl, NewHTTPClient goPlatform "https://mainnet.zklighter.elliot.ai" [] =
        Except.ok (some c, none) ∧
      c.endpoint = "https://mainnet.zklighter.elliot.ai" ∧ c.Client = some cl ∧
      c.defaultHeaders = [] ∧ ∀ key, Header.lookup c.defaultHeaders key = none) ∧
    (∃ k, http.NewClient "https://mainnet.zklighter.elliot.ai" = some k ∧
      k.endpoint = "https://mainnet.zklighter.elliot.ai") :=
  C10_nonempty_endpoint_recorded goPlatform "https://mainnet.zklighter.elliot.ai"
    (by decide)

/-- C9: for a non-empty endpoint, when every option is a `WithCustomHeaders`
or otherwise returns normally and leaves `Client` untouched (the empty option
list included), the built client has dial timeout 10s, keep-alive 60s,
1000 connections per host, 100 idle connections per host, idle-connection
timeout 10s and overall timeout 30s. -/
theorem C9_defaults_without_transport_options (P : Platform) (e : String)
    (options : List HTTPClientOption) (he : e ≠ "")
    (hopts : ∀ o ∈ options,
      (∃ headers, o = WithCustomHeaders P headers) ∨ leavesClientUntouched o) :
    ∃ c cl t d, NewHTTPClient P e options = Except.ok (some c, none) ∧
      c.Client = some cl ∧ cl.Transport = RoundTripper.transport t ∧
      t.DialContext = some d ∧
      d.Timeout = 10 * Second ∧ d.KeepAlive = 60 * Second ∧
      t.MaxConnsPerHost = 1000 ∧ t.MaxIdleConnsPerHost = 100 ∧
      t.IdleConnTimeout = 10 * Second ∧ cl.Timeout = 30 * Second := by
  have hall : ∀ o ∈ options, leavesClientUntouched o := by
    intro o ho
    rcases hopts o ho with ⟨headers, rfl⟩ | h
    · exact WithCustomHeaders_leavesClientUntouched P headers
    · exact h
  obtain ⟨c1, hrun, hc1⟩ := applyOptions_untouched options hall (initialClient e)
  have hnil : c1.Client = none := by simpa [initialClient] using hc1
  refine ⟨{ c1 with Client := some (defaultNetClient P) }, defaultNetClient P, _, _,
    ?_, rfl, rfl, rfl, rfl, rfl, rfl, rfl, rfl, ?_⟩
  · rw [NewHTTPClient_of_applyOptions P e options c1 he hrun, hnil]
  · simp [defaultNetClient, mul_comm]

/-- C9 at a concrete endpoint with one `WithCustomHeaders` and one empty `WithProxy`. -/
theorem C9_defaults_without_transport_options_witness :
    ∃ c cl t d,
      NewHTTPClient goPlatform "https://mainnet.zklighter.elliot.ai"
        [WithCustomHeaders goPlatform [("X-Api-Key", "k")], WithProxy goPlatform ""] =
          Except.ok (some c, none) ∧
      c.Client = some cl ∧ cl.Transport = RoundTripper.transport t ∧
      t.DialContext = some d ∧
      d.Timeout = 10 * Second ∧ d.KeepAlive = 60 * Second ∧
      t.MaxConnsPerHost = 1000 ∧ t.MaxIdleConnsPerHost = 100 ∧
      t.IdleConnTimeout = 10 * Second ∧ cl.Timeout = 30 * Second :=
  C9_defaults_without_transport_options goPlatform "https://mainnet.zklighter.elliot.ai"
    [WithCustomHeaders goPlatform [("X-Api-Key", "k")], WithProxy goPlatform ""]
    (by decide)
    (by
      intro o ho
      simp only [List.mem_cons, List.mem_singleton, List.not_mem_nil, or_false] at ho
      rcases ho with rfl | rfl
      · exact Or.inl ⟨_, rfl⟩
      · exact Or.inr (WithProxy_empty_leavesClientUntouched goPlatform))

/-- C4, as the code has it: for a non-empty endpoint, the client built with
no options has a transport whose TLS configuration sets `InsecureSkipVerify`
to true (certificate verification is skipped); the configuration with
verification enabled is the package-level `transport` of the `http` package,
which `NewHTTPClient` does not use. -/
theorem C4_default_tls_skips_verification (P : Platform) (e : String) (he : e ≠ "") :
    (∃ c cl t, NewHTTPClient P e [] = Except.ok (some c, none) ∧
      c.Client = some cl ∧ cl.Transport = RoundTripper.transport t ∧
      t.TLSClientConfig = some { InsecureSkipVerify := true }) ∧
    http.transport.TLSClientConfig = some { InsecureSkipVerify := false } := by
  refine ⟨⟨{ initialClient e with Client := some (defaultNetClient P) },
    defaultNetClient P, _, ?_, rfl, rfl, rfl⟩, rfl⟩
  simp [NewHTTPClient, he, applyOptions, initialClient]

/-- C4 as amended, at the endpoint `https://mainnet.zklighter.elliot.ai`. -/
theorem C4_default_tls_skips_verification_witness :
    (∃ c cl t, NewHTTPClient goPlatform "https://mainnet.zklighter.elliot.ai" [] =
        Except.ok (some c, none) ∧
      c.Client = some cl ∧ cl.Transport = RoundTripper.transport t ∧
      t.TLSClientConfig = some { InsecureSkipVerify := true }) ∧
    http.transport.TLSClientConfig = some { InsecureSkipVerify := false } :=
  C4_default_tls_skips_verification goPlatform "https://mainnet.zklighter.elliot.ai"
    (by decide)

/-- C4 fails as stated: for the endpoint `https://mainnet.zklighter.elliot.ai`
and no options, no built client has a transport with certificate verification
enabled. -/
theorem C4_counterexample :
    ¬ ∃ c cl t cfg,
      NewHTTPClient goPlatform "https://mainnet.zklighter.elliot.ai" [] =
        Except.ok (some c, none) ∧
      c.Client = some cl ∧ cl.Transport = RoundTripper.transport t ∧
      t.TLSClientConfig = some cfg ∧ cfg.InsecureSkipVerify = false := by
  rintro ⟨c, cl, t, cfg, hnew, hcl, ht, hcfg, hskip⟩
  have hne : ("https://mainnet.zklighter.elliot.ai" : String) ≠ "" := by decide
  simp only [NewHTTPClient, hne, if_false, applyOptions, initialClient,
    Except.ok.injEq, Prod.mk.injEq, Option.some.injEq, and_true] at hnew
  subst hnew
  simp only [Option.some.injEq] at hcl
  subst hcl
  simp only [defaultNetClient, RoundTripper.transport.injEq] at ht
  subst ht
  simp only [Option.some.injEq] at hcfg
  subst hcfg
  simp at hskip

/-- C7: `getOrCreateTransport` never replaces an installed client and is
idempotent. With a client installed, the configuration is unchanged and the
result is the type assertion of that client's transport (the transport itself
and `true` when it is an `*http.Transport`); with none installed, a client
with an empty transport is installed and returned; a second call on the
resulting configuration changes nothing and returns the same result. -/
theorem C7_getOrCreateTransport_idempotent (c : HTTPClient) :
    (∀ cl, c.Client = some cl →
      getOrCreateTransport c = (c, cl.Transport.asTransport) ∧
      ∀ t, cl.Transport = RoundTripper.transport t →
        getOrCreateTransport c = (c, (some t, true))) ∧
    (c.Client = none →
      getOrCreateTransport c =
        ({ c with Client := some (
            { Timeout := 0,
              Transport := RoundTripper.transport (
                { Proxy := none, DialContext := none, MaxConnsPerHost := 0,
                  MaxIdleConnsPerHost := 0, IdleConnTimeout := 0,
                  TLSClientConfig := none } : Transport) } : NetClient) },
          (some
            { Proxy := none, DialContext := none, MaxConnsPerHost := 0,
              MaxIdleConnsPerHost := 0, IdleConnTimeout := 0,
              TLSClientConfig := none }, true))) ∧
    getOrCreateTransport (getOrCreateTransport c).1 =
      ((getOrCreateTransport c).1, (getOrCreateTransport c).2) := by
  refine ⟨?_, ?_, ?_⟩
  · intro cl hcl
    refine ⟨by simp [getOrCreateTransport, hcl], ?_⟩
    intro t ht
    simp [getOrCreateTransport, hcl, ht, RoundTripper.asTransport]
  · intro hnil
    simp [getOrCreateTransport, hnil, RoundTripper.asTransport]
  · cases hcl : c.Client with
    | none => simp [getOrCreateTransport, hcl]
    | some cl => simp [getOrCreateTransport, hcl]

/-- C6: for a non-empty endpoint and a non-empty proxy string `p` that
`url.Parse` accepts as `u`, the client built with `WithProxy(p)` alone has a
transport whose proxy function is `http.ProxyURL(u)`: it returns `u` and no
error for every request, whatever the environment-derived rule would say. -/
theorem C6_proxy_installed (P : Platform) (e p : String) (u : URL)
    (he : e ≠ "") (hp : p ≠ "") (hu : P.urlParse p = Except.ok u) :
    ∃ c cl t f, NewHTTPClient P e [WithProxy P p] = Except.ok (some c, none) ∧
      c.Client = some cl ∧ cl.Transport = RoundTripper.transport t ∧
      t.Proxy = some f ∧ f = ProxyURL u ∧ ∀ req, f req = (some u, none) := by
  refine ⟨{ initialClient e with Client := some (
      { Transport := RoundTripper.transport { Proxy := some (ProxyURL u) } } : NetClient) },
    { Transport := RoundTripper.transport { Proxy := some (ProxyURL u) } },
    { Proxy := some (ProxyURL u) }, ProxyURL u, ?_, rfl, rfl, rfl, rfl, fun _ => rfl⟩
  simp [NewHTTPClient, he, applyOptions, WithProxy, hp, hu, getOrCreateTransport,
    RoundTripper.asTransport, storeTransport, initialClient]

/-- C6 at the proxy `http://127.0.0.1:8080`. -/
theorem C6_proxy_installed_witness :
    ∃ c cl t f,
      NewHTTPClient goPlatform "https://mainnet.zklighter.elliot.ai"
        [WithProxy goPlatform "http://127.0.0.1:8080"] = Except.ok (some c, none) ∧
      c.Client = some cl ∧ cl.Transport = RoundTripper.transport t ∧
      t.Proxy = some f ∧ f = ProxyURL { Scheme := "http", Host := "127.0.0.1:8080" } ∧
      ∀ req, f req = (some { Scheme := "http", Host := "127.0.0.1:8080" }, none) :=
  C6_proxy_installed goPlatform "https://mainnet.zklighter.elliot.ai"
    "http://127.0.0.1:8080" { Scheme := "http", Host := "127.0.0.1:8080" }
    (by decide) (by decide) rfl

/-- C8 at the failing input, the IPv6 loopback address `::1` as local IP: the
code builds the address `::1:0`, which `net.SplitHostPort` rejects, and
`WithLocalAddr` panics, whether `::1` comes second or first; so the build
returns no transport bound to `::1`. The same address written with brackets,
`[::1]:0`, resolves to `::1`, port 0, and so do the IPv4 addresses: building
with `10.0.0.5` then `10.0.0.6` binds the dialer to `10.0.0.6`, port 0, with
dial timeout 10s and keep-alive 60s. -/
theorem C8_ipv6_local_addr_panics :
    goPlatform.resolveTCPAddr "tcp" ("::1" ++ ":0") =
        Except.error "address ::1:0: too many colons in address" ∧
      NewHTTPClient goPlatform "https://mainnet.zklighter.elliot.ai"
          [WithLocalAddr goPlatform "10.0.0.5", WithLocalAddr goPlatform "::1"] =
        Except.error "无效的本地IP地址: address ::1:0: too many colons in address" ∧
      NewHTTPClient goPlatform "https://mainnet.zklighter.elliot.ai"
          [WithLocalAddr goPlatform "::1", WithLocalAddr goPlatform "10.0.0.5"] =
        Except.error "无效的本地IP地址: address ::1:0: too many colons in address" ∧
      goPlatform.resolveTCPAddr "tcp" "[::1]:0" =
        Except.ok { IP := [0, 0, 0, 0, 0, 0, 0, 0, 0, 0, 0, 0, 0, 0, 0, 1], Port := 0 } ∧
      ∃ c cl t,
        NewHTTPClient goPlatform "https://mainnet.zklighter.elliot.ai"
          [WithLocalAddr goPlatform "10.0.0.5", WithLocalAddr goPlatform "10.0.0.6"] =
            Except.ok (some c, none) ∧
        c.Client = some cl ∧ cl.Transport = RoundTripper.transport t ∧
        t.DialContext = some
          { Timeout := 10 * Second, KeepAlive := 60 * Second,
            LocalAddr := some
              { IP := [0, 0, 0, 0, 0, 0, 0, 0, 0, 0, 255, 255, 10, 0, 0, 6], Port := 0 } } :=
  ⟨rfl, rfl, rfl, rfl, _, _, _, rfl, rfl, rfl, rfl⟩

/-- C2, as the code has it: for a non-empty endpoint and a non-empty proxy
string that `url.Parse` rejects with error `err`, `NewHTTPClient` with
`WithProxy(proxy)` panics with the message built from `err`; it returns
neither a client nor an error value. -/
theorem C2_invalid_proxy_panics (P : Platform) (e proxy err : String)
    (he : e ≠ "") (hp : proxy ≠ "") (herr : P.urlParse proxy = Except.error err) :
    NewHTTPClient P e [WithProxy P proxy] = Except.error ("无效的代理URL: " ++ err) ∧
      ∀ r, NewHTTPClient P e [WithProxy P proxy] ≠ Except.ok r := by
  have hpanic :
      NewHTTPClient P e [WithProxy P proxy] = Except.error ("无效的代理URL: " ++ err) := by
    simp [NewHTTPClient, he, applyOptions, WithProxy, hp, herr]
  refine ⟨hpanic, ?_⟩
  intro r hr
  rw [hpanic] at hr
  cases hr

/-- C2 as amended, at the proxy string `::::not a url`. -/
theorem C2_invalid_proxy_panics_witness :
    goPlatform.urlParse "::::not a url" =
        Except.error "parse \"::::not a url\": missing protocol scheme" ∧
      NewHTTPClient goPlatform "https://mainnet.zklighter.elliot.ai"
          [WithProxy goPlatform "::::not a url"] =
        Except.error
          ("无效的代理URL: " ++ "parse \"::::not a url\": missing protocol scheme") ∧
      ∀ r, NewHTTPClient goPlatform "https://mainnet.zklighter.elliot.ai"
          [WithProxy goPlatform "::::not a url"] ≠ Except.ok r :=
  ⟨rfl,
    C2_invalid_proxy_panics goPlatform "https://mainnet.zklighter.elliot.ai"
      "::::not a url" "parse \"::::not a url\": missing protocol scheme"
      (by decide) (by decide) rfl⟩

/-- C2 fails as stated: for the endpoint `https://mainnet.zklighter.elliot.ai`
and the proxy string `::::not a url`, which `url.Parse` rejects, the call does
not return an error value: it panics. -/
theorem C2_counterexample :
    goPlatform.urlParse "::::not a url" =
        Except.error "parse \"::::not a url\": missing protocol scheme" ∧
      NewHTTPClient goPlatform "https://mainnet.zklighter.elliot.ai"
          [WithProxy goPlatform "::::not a url"] =
        Except.error "无效的代理URL: parse \"::::not a url\": missing protocol scheme" ∧
      ¬ ∃ err, NewHTTPClient goPlatform "https://mainnet.zklighter.elliot.ai"
          [WithProxy goPlatform "::::not a url"] = Except.ok (none, some err) := by
  refine ⟨rfl, rfl, ?_⟩
  rintro ⟨err, herr⟩
  have hpanic : NewHTTPClient goPlatform "https://mainnet.zklighter.elliot.ai"
      [WithProxy goPlatform "::::not a url"] =
        Except.error "无效的代理URL: parse \"::::not a url\": missing protocol scheme" := rfl
  rw [hpanic] at herr
  cases herr

/-- C3, as the code has it: for a non-empty endpoint and a list of options
that runs without panic, the documented defaults are installed, all together,
only when the options left `Client` nil; a client that an option installed is
returned as the options left it. So after building with only `WithProxy` of a
valid URL, or only `WithLocalAddr` of a valid IP, the per-host connection cap,
the per-host idle cap, the idle-connection timeout and the client timeout are
all zero. -/
theorem C3_defaults_only_without_client (P : Platform) (e p a : String)
    (options : List HTTPClientOption) (c0 : HTTPClient) (u : URL) (addr : TCPAddr)
    (he : e ≠ "") (hrun : applyOptions options (initialClient e) = Except.ok c0)
    (hp : p ≠ "") (hu : P.urlParse p = Except.ok u)
    (ha : a ≠ "") (hr : P.resolveTCPAddr "tcp" (a ++ ":0") = Except.ok addr) :
    (c0.Client = none →
      ∃ cl t, NewHTTPClient P e options =
          Except.ok (some { c0 with Client := some cl }, none) ∧
        cl.Transport = RoundTripper.transport t ∧ cl.Timeout = 30 * Second ∧
        t.Proxy = some P.proxyFromEnvironment ∧
        t.DialContext = some { Timeout := 10 * Second, KeepAlive := 60 * Second } ∧
        t.MaxConnsPerHost = 1000 ∧ t.MaxIdleConnsPerHost = 100 ∧
        t.IdleConnTimeout = 10 * Second ∧
        t.TLSClientConfig = some { InsecureSkipVerify := true }) ∧
    (∀ cl, c0.Client = some cl →
      NewHTTPClient P e options = Except.ok (some c0, none)) ∧
    (∃ c cl t, NewHTTPClient P e [WithProxy P p] = Except.ok (some c, none) ∧
      c.Client = some cl ∧ cl.Transport = RoundTripper.transport t ∧
      t.Proxy = some (ProxyURL u) ∧ t.DialContext = none ∧
      t.MaxConnsPerHost = 0 ∧ t.MaxIdleConnsPerHost = 0 ∧ t.IdleConnTimeout = 0 ∧
      t.TLSClientConfig = none ∧ cl.Timeout = 0) ∧
    (∃ c cl t, NewHTTPClient P e [WithLocalAddr P a] = Except.ok (some c, none) ∧
      c.Client = some cl ∧ cl.Transport = RoundTripper.transport t ∧
      t.Proxy = none ∧
      t.DialContext = some
        { Timeout := 10 * Second, KeepAlive := 60 * Second, LocalAddr := some addr } ∧
      t.MaxConnsPerHost = 0 ∧ t.MaxIdleConnsPerHost = 0 ∧ t.IdleConnTimeout = 0 ∧
      t.TLSClientConfig = none ∧ cl.Timeout = 0) := by
  refine ⟨?_, ?_, ?_, ?_⟩
  · intro hnil
    refine ⟨defaultNetClient P, _, ?_, rfl, ?_, rfl, rfl, rfl, rfl, rfl, rfl⟩
    · rw [NewHTTPClient_of_applyOptions P e options c0 he hrun, hnil]
    · simp [defaultNetClient, mul_comm]
  · intro cl hcl
    rw [NewHTTPClient_of_applyOptions P e options c0 he hrun, hcl]
  · simp [NewHTTPClient, he, applyOptions, WithProxy, hp, hu, getOrCreateTransport,
      RoundTripper.asTransport, storeTransport, initialClient]
  · simp [NewHTTPClient, he, applyOptions, WithLocalAddr, ha, hr, getOrCreateTransport,
      RoundTripper.asTransport, storeTransport, initialClient]

/-- C3 as amended, at the proxy `http://127.0.0.1:8080` and the local address `10.0.0.5`. -/
theorem C3_defaults_only_without_client_witness :
    goPlatform.urlParse "http://127.0.0.1:8080" =
        Except.ok { Scheme := "http", Host := "127.0.0.1:8080" } ∧
      goPlatform.resolveTCPAddr "tcp" ("10.0.0.5" ++ ":0") =
        Except.ok { IP := [0, 0, 0, 0, 0, 0, 0, 0, 0, 0, 255, 255, 10, 0, 0, 5], Port := 0 } ∧
      ∃ c cl t,
        NewHTTPClient goPlatform "https://mainnet.zklighter.elliot.ai"
          [WithLocalAddr goPlatform "10.0.0.5"] = Except.ok (some c, none) ∧
        c.Client = some cl ∧ cl.Transport = RoundTripper.transport t ∧
        t.Proxy = none ∧
        t.DialContext = some
          { Timeout := 10 * Second, KeepAlive := 60 * Second,
            LocalAddr := some { IP := [0, 0, 0, 0, 0, 0, 0, 0, 0, 0, 255, 255, 10, 0, 0, 5], Port := 0 } } ∧
        t.MaxConnsPerHost = 0 ∧ t.MaxIdleConnsPerHost = 0 ∧ t.IdleConnTimeout = 0 ∧
        t.TLSClientConfig = none ∧ cl.Timeout = 0 :=
  ⟨rfl, rfl,
    (C3_defaults_only_without_client goPlatform "https://mainnet.zklighter.elliot.ai"
      "http://127.0.0.1:8080" "10.0.0.5" []
      (initialClient "https://mainnet.zklighter.elliot.ai")
      { Scheme := "http", Host := "127.0.0.1:8080" } { IP := [0, 0, 0, 0, 0, 0, 0, 0, 0, 0, 255, 255, 10, 0, 0, 5], Port := 0 }
      (by decide) rfl (by decide) rfl (by decide) rfl).2.2.2⟩

/-- C3 fails as stated: for the endpoint `https://mainnet.zklighter.elliot.ai`
and the single option `WithProxy("http://127.0.0.1:8080")`, which succeeds, the
built client has per-host connection cap 0 (not 1000), per-host idle cap 0
(not 100), idle-connection timeout 0 (not 10s) and client timeout 0 (not 30s);
the same holds for the single option `WithLocalAddr("10.0.0.5")`. -/
theorem C3_counterexample :
    (∃ c cl t,
      NewHTTPClient goPlatform "https://mainnet.zklighter.elliot.ai"
        [WithProxy goPlatform "http://127.0.0.1:8080"] = Except.ok (some c, none) ∧
      c.Client = some cl ∧ cl.Transport = RoundTripper.transport t ∧
      t.MaxConnsPerHost = 0 ∧ t.MaxConnsPerHost ≠ 1000 ∧
      t.MaxIdleConnsPerHost = 0 ∧ t.MaxIdleConnsPerHost ≠ 100 ∧
      t.IdleConnTimeout = 0 ∧ t.IdleConnTimeout ≠ 10 * Second ∧
      cl.Timeout = 0 ∧ cl.Timeout ≠ 30 * Second) ∧
    (∃ c cl t,
      NewHTTPClient goPlatform "https://mainnet.zklighter.elliot.ai"
        [WithLocalAddr goPlatform "10.0.0.5"] = Except.ok (some c, none) ∧
      c.Client = some cl ∧ cl.Transport = RoundTripper.transport t ∧
      t.MaxConnsPerHost = 0 ∧ t.MaxConnsPerHost ≠ 1000 ∧
      t.MaxIdleConnsPerHost = 0 ∧ t.MaxIdleConnsPerHost ≠ 100 ∧
      t.IdleConnTimeout = 0 ∧ t.IdleConnTimeout ≠ 10 * Second ∧
      cl.Timeout = 0 ∧ cl.Timeout ≠ 30 * Second) := by
  refine ⟨⟨_, _, _, rfl, rfl, rfl, rfl, by decide, rfl, by decide, rfl, by decide, rfl,
    by decide⟩, ⟨_, _, _, rfl, rfl, rfl, rfl, by decide, rfl, by decide, rfl, by decide,
    rfl, by decide⟩⟩

/-- C5, as the code has it: `WithCustomHeaders` merges. For every prior
configuration and every input map whose keys have pairwise distinct canonical
forms, after the option each key of the input holds exactly the input's value
under its canonical form (so `Header.Get` of the key returns it), whatever was
there before, and every map key that is the canonical form of no input key
keeps its prior value list. Applying `A:1` and then `A:2, B:3` (in either
iteration order) to a fresh configuration yields exactly `A:[2], B:[3]`. -/
theorem C5_custom_headers_merge (P : Platform) (c : HTTPClient)
    (h : List (String × String))
    (hdistinct : (h.map (fun kv => P.canonicalMIMEHeaderKey kv.1)).Nodup) :
    (∃ c1, WithCustomHeaders P h c = Except.ok c1 ∧
      (∀ kv ∈ h,
        Header.lookup c1.defaultHeaders (P.canonicalMIMEHeaderKey kv.1) = some [kv.2] ∧
        Header.Get P c1.defaultHeaders kv.1 = kv.2) ∧
      (∀ key, (∀ kv ∈ h, P.canonicalMIMEHeaderKey kv.1 ≠ key) →
        Header.lookup c1.defaultHeaders key = Header.lookup c.defaultHeaders key) ∧
      (∀ name, (∀ kv ∈ h, P.canonicalMIMEHeaderKey kv.1 ≠ P.canonicalMIMEHeaderKey name) →
        Header.Get P c1.defaultHeaders name = Header.Get P c.defaultHeaders name)) ∧
    (∀ e, ∀ second ∈ [[("A", "2"), ("B", "3")], [("B", "3"), ("A", "2")]],
      ∃ c2,
        applyOptions
          [WithCustomHeaders goPlatform [("A", "1")], WithCustomHeaders goPlatform second]
          (initialClient e) = Except.ok c2 ∧
        c2.defaultHeaders = [("A", ["2"]), ("B", ["3"])]) := by
  refine ⟨⟨_, rfl, ?_, ?_, ?_⟩, ?_⟩
  · intro kv hkv
    have hlook := Header.lookup_foldl_Set_mem P h c.defaultHeaders hdistinct kv hkv
    refine ⟨hlook, ?_⟩
    simp only [Header.Get]
    rw [hlook]
  · intro key habsent
    exact Header.lookup_foldl_Set_other P h c.defaultHeaders key habsent
  · intro name habsent
    simp only [Header.Get]
    rw [Header.lookup_foldl_Set_other P h c.defaultHeaders _ habsent]
  · intro e second hsecond
    simp only [List.mem_cons, List.mem_singleton, List.not_mem_nil, or_false] at hsecond
    rcases hsecond with rfl | rfl
    · exact ⟨_, rfl, rfl⟩
    · exact ⟨_, rfl, rfl⟩

/-- C5 as amended, at a prior map with two keys and an input map with two keys, one of which overwrites. -/
theorem C5_custom_headers_merge_witness :
    ([("content-type", "application/json"), ("X-Api-Key", "k")].map
        (fun kv => goPlatform.canonicalMIMEHeaderKey kv.1)).Nodup ∧
      ∃ c1,
        WithCustomHeaders goPlatform [("content-type", "application/json"), ("X-Api-Key", "k")]
          { initialClient "https://mainnet.zklighter.elliot.ai" with
            defaultHeaders := [("Content-Type", ["text/plain"]), ("Accept", ["*/*"])] } =
          Except.ok c1 ∧
        c1.defaultHeaders =
          [("Content-Type", ["application/json"]), ("Accept", ["*/*"]), ("X-Api-Key", ["k"])] :=
  ⟨by decide,
    (C5_custom_headers_merge goPlatform
      { initialClient "https://mainnet.zklighter.elliot.ai" with
        defaultHeaders := [("Content-Type", ["text/plain"]), ("Accept", ["*/*"])] }
      [("content-type", "application/json"), ("X-Api-Key", "k")] (by decide)).1.imp
      (fun _ hc1 => ⟨hc1.1, by rw [← Except.ok.inj hc1.1]; rfl⟩)⟩

/-- C5 fails as stated: the input map with the two keys `a` (value `1`) and
`A` (value `2`) has one canonical key `A`, so in either iteration order one of
its keys does not end up with its own value, and the key `a` itself is not a
key of the resulting map. -/
theorem C5_counterexample :
    (∃ c1,
      WithCustomHeaders goPlatform [("a", "1"), ("A", "2")]
        (initialClient "https://mainnet.zklighter.elliot.ai") = Except.ok c1 ∧
      c1.defaultHeaders = [("A", ["2"])] ∧
      Header.Get goPlatform c1.defaultHeaders "a" = "2" ∧
      Header.Get goPlatform c1.defaultHeaders "a" ≠ "1" ∧
      Header.lookup c1.defaultHeaders "a" = none) ∧
    (∃ c1,
      WithCustomHeaders goPlatform [("A", "2"), ("a", "1")]
        (initialClient "https://mainnet.zklighter.elliot.ai") = Except.ok c1 ∧
      c1.defaultHeaders = [("A", ["1"])] ∧
      Header.Get goPlatform c1.defaultHeaders "A" = "1" ∧
      Header.Get goPlatform c1.defaultHeaders "A" ≠ "2" ∧
      Header.lookup c1.defaultHeaders "a" = none) := by
  refine ⟨⟨_, rfl, rfl, rfl, by decide, rfl⟩, ⟨_, rfl, rfl, rfl, by decide, rfl⟩⟩

end LighterGo


